import Mathlib

/-!
Verification development for the pypage templating engine
(Rust implementation in `src/rust_rewrite/pypage/src/lib.rs`).

The engine is embedded shallowly:
* strings are `List Char` (the Rust code indexes by `char_indices`;
  positions are modelled as character indices),
* the lexer, parser and evaluator are transcribed function by function,
* loops are expressed with an explicit fuel parameter (running out of fuel
  yields the distinguished error `RuntimeError "out of fuel"`),
* the embedded Python interpreter, which the engine treats as a black box,
  is a parameter (`Host`): expression evaluation, statement execution and
  generator stepping are host-supplied functions over a mutable global
  environment modelled as an association list.
-/

namespace Pypage

/-! ## Basic string helpers (mirroring `str` operations used by the source) -/

def trim_start (s : List Char) : List Char := s.dropWhile Char.isWhitespace

def trim_end (s : List Char) : List Char := (s.reverse.dropWhile Char.isWhitespace).reverse

/-- Rust `str::trim`: remove leading and trailing whitespace. -/
def trim (s : List Char) : List Char := trim_end (trim_start s)

/-- One pass of Rust `str::replace("\\" ++ [a], [a])`: the two-character
sequence backslash-`a` becomes `a`. -/
def replace_escape (a : Char) : List Char → List Char
  | '\\' :: c :: rest =>
    if c = a then c :: replace_escape a rest else '\\' :: replace_escape a (c :: rest)
  | c :: rest => c :: replace_escape a rest
  | [] => []

/-- `unescape_str_cow` from the source: `s.replace("\\{", "{").replace("\\}", "}")`. -/
def unescape_str (s : List Char) : List Char :=
  replace_escape '}' (replace_escape '{' s)

/-- `is_identifier` from the source. -/
def is_identifier (s : List Char) : Bool :=
  match s with
  | [] => false
  | first :: rest =>
    (first.isAlpha || first = '_') && rest.all (fun c => c.isAlphanum || c = '_')

def split_whitespace_go : Nat → List Char → List (List Char)
  | 0, _ => []
  | _, [] => []
  | fuel+1, c :: rest =>
    if c.isWhitespace then split_whitespace_go fuel rest
    else (c :: rest.takeWhile (fun d => !d.isWhitespace)) ::
      split_whitespace_go fuel (rest.dropWhile (fun d => !d.isWhitespace))

/-- Rust `str::split_whitespace`. -/
def split_whitespace (s : List Char) : List (List Char) :=
  split_whitespace_go (s.length + 1) s

/-- Rust `str::split(',')` (keeps empty pieces). -/
def split_comma : List Char → List (List Char)
  | [] => [[]]
  | ',' :: rest => [] :: split_comma rest
  | c :: rest =>
    match split_comma rest with
    | [] => [[c]]
    | w :: ws => (c :: w) :: ws

/-- Lexicographic order on strings, as used by Rust `Vec::<String>::sort`. -/
def str_lt : List Char → List Char → Bool
  | [], [] => false
  | [], _ :: _ => true
  | _ :: _, [] => false
  | a :: as_, b :: bs => if a = b then str_lt as_ bs else decide (a < b)

def insert_sorted (x : List Char) : List (List Char) → List (List Char)
  | [] => [x]
  | y :: ys => if str_lt x y || x = y then x :: y :: ys else y :: insert_sorted x ys

/-- Ascending sort; on duplicate-free lists this agrees with Rust `sort`. -/
def sort_strings (l : List (List Char)) : List (List Char) :=
  l.foldr insert_sorted []

/-- Rust `Vec::<String>::join(", ")`. -/
def join_comma_space : List (List Char) → List Char
  | [] => []
  | [x] => x
  | x :: rest => x ++ ", ".data ++ join_comma_space rest

/-! ## Error type (`PypageError`) -/

inductive PypageError where
  | SyntaxError (msg : List Char)
  | RuntimeError (msg : List Char)
  | IncompleteTagNode (open_delim close_delim : List Char) (line column : Nat)
  | MultiLineBlockTag (line column : Nat)
  | UnboundEndBlockTag (tag : List Char) (line column : Nat)
  | MismatchingEndBlockTag (expected found : List Char) (line column : Nat)
  | MismatchingIndentation (line : Nat) (expected : List Char)
  | UnclosedTag (tag : List Char) (line column : Nat)
  | ExpressionMissing (tag : List Char) (line column : Nat)
  | ExpressionProhibited (tag : List Char) (line column : Nat)
  | ElifOrElseWithoutIf (line column : Nat)
  | IncorrectForTag (src : List Char)
  | InvalidCaptureBlockVariableName (varname : List Char)
  | InvalidDefBlockFunctionOrArgName (name : List Char)
  | InvalidDefBlockMismatchingArgCount (expected found : Nat)
  | UnknownTag (tag : List Char) (line column : Nat)
  | FileNotFound (filepath : List Char)
  | PythonError (msg : List Char)
deriving DecidableEq

structure Location where
  line : Nat
  column : Nat
deriving DecidableEq

/-! ## Tokens and the lexer -/

def CODE_OPEN : List Char := ['{', '{']
def CODE_CLOSE : List Char := ['}', '}']
def COMMENT_OPEN : List Char := ['{', '#']
def COMMENT_CLOSE : List Char := ['#', '}']
def BLOCK_OPEN : List Char := ['{', '%']
def BLOCK_CLOSE : List Char := ['%', '}']

inductive Token where
  | Text (src : List Char)
  | Code (src : List Char) (loc : Location)
  | Comment (src : List Char) (loc : Location)
  | Block (src : List Char) (loc : Location)
deriving DecidableEq

inductive TokenInProgress where
  | None
  | Text (start : Nat)
  | Code (start : Nat) (loc : Location)
  | Comment (start : Nat) (loc : Location)
  | Block (start : Nat) (loc : Location)

def matches_two_char_delim (c : Char) (next_char : Option Char) (delim : List Char) : Bool :=
  match next_char with
  | some next =>
    match delim with
    | [d1, d2] => c = d1 && next = d2
    | _ => false
  | none => false

/-- End-of-input handling of the lexer (the code after the scan loop). -/
def lex_finalize (src : List Char) (current_token : TokenInProgress)
    (tokens : List Token) : Except PypageError (List Token) :=
  match current_token with
  | .None => .ok tokens
  | .Text start =>
    if start < src.length then .ok (tokens ++ [Token.Text (src.drop start)]) else .ok tokens
  | .Code _ loc => .error (.IncompleteTagNode CODE_OPEN CODE_CLOSE loc.line loc.column)
  | .Comment _ loc => .error (.IncompleteTagNode COMMENT_OPEN COMMENT_CLOSE loc.line loc.column)
  | .Block _ loc => .error (.IncompleteTagNode BLOCK_OPEN BLOCK_CLOSE loc.line loc.column)

/-- The scan loop of `lex`.  `rem` is the unread suffix of `src`, `i` the
current character index; one unit of fuel is spent per loop iteration
(the Rust loop advances `i` by 0, 1 or 2 per iteration). -/
def lex_go (src : List Char) :
    Nat → List Char → Nat → TokenInProgress → Nat → Nat → Nat → List Token →
    Except PypageError (List Token)
  | _, [], _, current_token, _, _, _, tokens => lex_finalize src current_token tokens
  | 0, _ :: _, _, _, _, _, _, _ => .error (.RuntimeError "out of fuel".data)
  | fuel+1, c :: rest, i, current_token, comment_tag_depth, line_number, newline_position, tokens =>
    let next_char : Option Char := rest.head?
    let line' := if c = '\n' then line_number + 1 else line_number
    let nl' := if c = '\n' then i else newline_position
    let loc : Location := ⟨line', i - nl'⟩
    match current_token with
    | .None =>
      if matches_two_char_delim c next_char CODE_OPEN then
        lex_go src fuel rest.tail (i+2) (.Code (i+2) loc) comment_tag_depth line' nl' tokens
      else if matches_two_char_delim c next_char COMMENT_OPEN then
        lex_go src fuel rest.tail (i+2) (.Comment (i+2) loc) (comment_tag_depth+1) line' nl' tokens
      else if matches_two_char_delim c next_char BLOCK_OPEN then
        lex_go src fuel rest.tail (i+2) (.Block (i+2) loc) comment_tag_depth line' nl' tokens
      else
        lex_go src fuel (c :: rest) i (.Text i) comment_tag_depth line' nl' tokens
    | .Text start =>
      if matches_two_char_delim c next_char CODE_OPEN
          || matches_two_char_delim c next_char COMMENT_OPEN
          || matches_two_char_delim c next_char BLOCK_OPEN then
        let tokens' := if start < i then tokens ++ [Token.Text ((src.drop start).take (i - start))]
          else tokens
        if matches_two_char_delim c next_char CODE_OPEN then
          lex_go src fuel rest.tail (i+2) (.Code (i+2) loc) comment_tag_depth line' nl' tokens'
        else if matches_two_char_delim c next_char COMMENT_OPEN then
          lex_go src fuel rest.tail (i+2) (.Comment (i+2) loc) (comment_tag_depth+1) line' nl' tokens'
        else
          lex_go src fuel rest.tail (i+2) (.Block (i+2) loc) comment_tag_depth line' nl' tokens'
      else
        lex_go src fuel rest (i+1) (.Text start) comment_tag_depth line' nl' tokens
    | .Code start start_loc =>
      if matches_two_char_delim c next_char CODE_CLOSE then
        lex_go src fuel rest.tail (i+2) .None comment_tag_depth line' nl'
          (tokens ++ [Token.Code ((src.drop start).take (i - start)) start_loc])
      else
        lex_go src fuel rest (i+1) (.Code start start_loc) comment_tag_depth line' nl' tokens
    | .Comment start start_loc =>
      if matches_two_char_delim c next_char COMMENT_OPEN then
        lex_go src fuel rest.tail (i+2) (.Comment start start_loc) (comment_tag_depth+1)
          line' nl' tokens
      else if matches_two_char_delim c next_char COMMENT_CLOSE then
        if comment_tag_depth - 1 = 0 then
          lex_go src fuel rest.tail (i+2) .None (comment_tag_depth-1) line' nl'
            (tokens ++ [Token.Comment ((src.drop start).take (i - start)) start_loc])
        else
          lex_go src fuel rest.tail (i+2) (.Comment start start_loc) (comment_tag_depth-1)
            line' nl' tokens
      else
        lex_go src fuel rest (i+1) (.Comment start start_loc) comment_tag_depth line' nl' tokens
    | .Block start start_loc =>
      if matches_two_char_delim c next_char BLOCK_CLOSE then
        let block_src := (src.drop start).take (i - start)
        if block_src.contains '\n' then
          .error (.MultiLineBlockTag start_loc.line start_loc.column)
        else
          lex_go src fuel rest.tail (i+2) .None comment_tag_depth line' nl'
            (tokens ++ [Token.Block block_src start_loc])
      else
        lex_go src fuel rest (i+1) (.Block start start_loc) comment_tag_depth line' nl' tokens

/-- `lex` from the source.  Every loop iteration advances by at least one
character or switches the outside state to text (which happens at most once
per character), so `2 * |src| + 2` units of fuel always suffice. -/
def lex (src : List Char) : Except PypageError (List Token) :=
  lex_go src (2 * src.length + 2) src 0 .None 0 1 0 []

/-- `prune_tokens`: drop empty text tokens. -/
def prune_tokens (tokens : List Token) : List Token :=
  tokens.filter (fun token =>
    match token with
    | .Text text => !text.isEmpty
    | _ => true)

end Pypage

namespace Pypage

/-! ## AST -/

structure ForBlock where
  targets : List (List Char)
  genexpr : List Char
deriving DecidableEq

structure WhileBlock where
  expr : List Char
  dofirst : Bool
  slow : Bool
deriving DecidableEq

structure DefBlock where
  funcname : List Char
  argnames : List (List Char)
deriving DecidableEq

structure CaptureBlock where
  varname : List Char
deriving DecidableEq

structure EndBlock where
  tag_to_end : List Char
deriving DecidableEq

inductive ConditionalType where
  | If
  | Elif
  | Else
deriving DecidableEq

mutual
inductive Node where
  | Root (children : List Node)
  | Text (src : List Char)
  | Code (src : List Char) (loc : Location)
  | Comment (src : List Char) (loc : Location)
  | Block (b : BlockNode)

inductive BlockNode where
  | mk (src : List Char) (loc : Location) (children : List Node) (block_type : BlockType)

inductive BlockType where
  | Conditional (c : ConditionalBlock)
  | For (f : ForBlock)
  | While (w : WhileBlock)
  | Def (d : DefBlock)
  | Capture (c : CaptureBlock)
  | Comment
  | End (e : EndBlock)

inductive ConditionalBlock where
  | mk (tag_type : ConditionalType) (expr : List Char) (continuation : Option BlockNode)
end

def BlockNode.src : BlockNode → List Char
  | .mk src _ _ _ => src

def BlockNode.loc : BlockNode → Location
  | .mk _ loc _ _ => loc

def BlockNode.children : BlockNode → List Node
  | .mk _ _ children _ => children

def BlockNode.block_type : BlockNode → BlockType
  | .mk _ _ _ block_type => block_type

def ConditionalBlock.tag_type : ConditionalBlock → ConditionalType
  | .mk tag_type _ _ => tag_type

def ConditionalBlock.expr : ConditionalBlock → List Char
  | .mk _ expr _ => expr

def ConditionalBlock.continuation : ConditionalBlock → Option BlockNode
  | .mk _ _ continuation => continuation

/-- Append a child node (the Rust code mutates `children` with `push`). -/
def BlockNode.push_child (b : BlockNode) (n : Node) : BlockNode :=
  match b with
  | .mk src loc children bt => .mk src loc (children ++ [n]) bt

/-- Set the continuation when the node is a conditional
(`if let BlockType::Conditional(ref mut main_cond) = ... { main_cond.continuation = ... }`). -/
def BlockNode.set_continuation (b : BlockNode) (k : BlockNode) : BlockNode :=
  match b with
  | .mk src loc children (.Conditional (.mk tt e _)) =>
    .mk src loc children (.Conditional (.mk tt e (some k)))
  | other => other

/-! ## Block-tag classification (`parse_block_type`, `find_for_targets`) -/

/-- Per-target processing inside `find_for_targets`: optionally strip
characters that are not alphanumeric/underscore/comma, then split on commas
and append new identifiers to the accumulated target list. -/
def clean_and_add_targets (target : List Char) (targets : List (List Char)) :
    List (List Char) :=
  let needs_cleaning := target.any (fun c => !(c.isAlphanum || c = '_' || c = ','))
  let pieces :=
    if needs_cleaning then
      split_comma (target.filter (fun c => c.isAlphanum || c = '_' || c = ','))
    else
      split_comma target
  pieces.foldl (fun acc piece =>
    let t := trim piece
    if is_identifier t && !acc.contains t then acc ++ [t] else acc) targets

/-- The scan of `find_for_targets` over whitespace-separated tokens: find the
first `for` (with at least two following tokens) that is followed by an `in`,
and collect the names in between.  Later `for`s are not processed. -/
def find_for_scan : List (List Char) → Option (List (List Char))
  | [] => none
  | w :: rest =>
    if w = "for".data && rest.length ≥ 2 then
      match rest.findIdx? (fun t => t = "in".data) with
      | some rel =>
        some ((rest.take rel).foldl (fun acc t => clean_and_add_targets t acc) [])
      | none => find_for_scan rest
    else
      find_for_scan rest

def find_for_targets (src : List Char) : Except PypageError (List (List Char)) :=
  let tokens := split_whitespace src
  let targets :=
    match find_for_scan tokens with
    | some ts => ts
    | none => []
  if targets.isEmpty then .error (.IncorrectForTag src)
  else .ok (sort_strings targets)

def parse_block_type (src : List Char) (loc : Location) : Except PypageError BlockType :=
  let unescaped := unescape_str src
  let trimmed := trim unescaped
  if trimmed.isEmpty || "end".data.isPrefixOf trimmed then
    let tag_to_end := if "end".data.isPrefixOf trimmed then trim (trimmed.drop 3) else []
    .ok (.End ⟨tag_to_end⟩)
  else if trimmed = "comment".data then
    .ok .Comment
  else if "if ".data.isPrefixOf trimmed || "elif ".data.isPrefixOf trimmed
      || trimmed = "else".data then
    let tag_type : ConditionalType :=
      if "if ".data.isPrefixOf trimmed then .If
      else if "elif ".data.isPrefixOf trimmed then .Elif
      else .Else
    let expr_str : List Char :=
      if "if ".data.isPrefixOf trimmed then trim (trimmed.drop 3)
      else if "elif ".data.isPrefixOf trimmed then trim (trimmed.drop 5)
      else "True".data
    if tag_type = .Else && !expr_str.isEmpty && expr_str ≠ "True".data then
      .error (.ExpressionProhibited "else".data loc.line loc.column)
    else if expr_str.isEmpty && tag_type ≠ .Else then
      let tag_name : List Char :=
        match tag_type with
        | .If => "if".data
        | .Elif => "elif".data
        | .Else => "else".data
      .error (.ExpressionMissing tag_name loc.line loc.column)
    else
      .ok (.Conditional (.mk tag_type expr_str none))
  else if "for ".data.isPrefixOf trimmed then
    match find_for_targets trimmed with
    | .error e => .error e
    | .ok targets =>
      .ok (.For ⟨targets, "((".data ++ join_comma_space targets ++ ") ".data ++ trimmed ++ ")".data⟩)
  else if "while ".data.isPrefixOf trimmed then
    let expr0 := trim (trimmed.drop 6)
    let dofirst := "dofirst ".data.isPrefixOf expr0
    let expr1 := if dofirst then trim (expr0.drop 8) else expr0
    let slow := " slow".data.isSuffixOf expr1
    let expr2 := if slow then trim (expr1.take (expr1.length - 5)) else expr1
    .ok (.While ⟨expr2, dofirst, slow⟩)
  else if "def ".data.isPrefixOf trimmed then
    match split_whitespace (trim (trimmed.drop 4)) with
    | [] => .error (.InvalidDefBlockFunctionOrArgName [])
    | funcname :: argnames =>
      match (funcname :: argnames).find? (fun p => !is_identifier p) with
      | some bad => .error (.InvalidDefBlockFunctionOrArgName bad)
      | none => .ok (.Def ⟨funcname, argnames⟩)
  else if "capture ".data.isPrefixOf trimmed then
    let varname := trim (trimmed.drop 8)
    if !is_identifier varname then .error (.InvalidCaptureBlockVariableName varname)
    else .ok (.Capture ⟨varname⟩)
  else
    .error (.UnknownTag trimmed loc.line loc.column)

/-! ## Tree assembly -/

inductive StopReason where
  | EndOfTokens
  | EndTag (t : Token)
  | Continuation (t : Token)

/-- Whether a specific end tag matches a block kind (shared by
`build_tree_for_block_with_reason` and `build_tree`). -/
def end_matches_block (tag_to_end : List Char) (bt : BlockType) : Bool :=
  match bt with
  | .Conditional _ => tag_to_end = "if".data
  | .For _ => tag_to_end = "for".data
  | .While _ => tag_to_end = "while".data
  | .Def _ => tag_to_end = "def".data
  | .Capture _ => tag_to_end = "capture".data
  | .Comment => tag_to_end = "comment".data
  | .End _ => false

mutual
def build_conditional_chain :
    Nat → BlockNode → List Token → Except PypageError (BlockNode × List Token)
  | 0, _, _ => .error (.RuntimeError "out of fuel".data)
  | fuel+1, block_node, tokens =>
    match build_tree_for_block_with_reason fuel block_node tokens with
    | .error e => .error e
    | .ok (node1, toks1, stop) =>
      match stop with
      | .Continuation (Token.Block src loc) =>
        (match parse_block_type src loc with
         | .error e => .error e
         | .ok bt =>
           match bt with
           | .Conditional cond =>
             if cond.tag_type = .Elif || cond.tag_type = .Else then
               match build_conditional_chain fuel (BlockNode.mk src loc [] bt) toks1 with
               | .error e => .error e
               | .ok (continuation_block, toks2) =>
                 .ok (node1.set_continuation continuation_block, toks2)
             else .ok (node1, toks1)
           | _ => .ok (node1, toks1))
      | .Continuation _ => .ok (node1, toks1)
      | .EndTag t => .ok (node1, t :: toks1)
      | .EndOfTokens => .ok (node1, toks1)

def build_tree_for_block_with_reason :
    Nat → BlockNode → List Token → Except PypageError (BlockNode × List Token × StopReason)
  | _, block_node, [] => .ok (block_node, [], .EndOfTokens)
  | 0, _, _ :: _ => .error (.RuntimeError "out of fuel".data)
  | fuel+1, block_node, token :: rest =>
    match token with
    | .Text text =>
      build_tree_for_block_with_reason fuel (block_node.push_child (.Text text)) rest
    | .Code src loc =>
      build_tree_for_block_with_reason fuel (block_node.push_child (.Code src loc)) rest
    | .Comment _ _ =>
      build_tree_for_block_with_reason fuel block_node rest
    | .Block src loc =>
      match parse_block_type src loc with
      | .error e => .error e
      | .ok block_type =>
        match block_type with
        | .End end_block =>
          if end_block.tag_to_end.isEmpty
              || end_matches_block end_block.tag_to_end block_node.block_type then
            .ok (block_node, rest, .EndOfTokens)
          else
            .ok (block_node, rest, .EndTag (.Block src loc))
        | .Conditional cond =>
          if cond.tag_type = .Elif || cond.tag_type = .Else then
            .ok (block_node, rest, .Continuation (.Block src loc))
          else
            (match build_conditional_chain fuel (BlockNode.mk src loc [] block_type) rest with
             | .error e => .error e
             | .ok (child_block, rest') =>
               build_tree_for_block_with_reason fuel
                 (block_node.push_child (.Block child_block)) rest')
        | _ =>
          match build_tree_for_block_with_reason fuel (BlockNode.mk src loc [] block_type) rest with
          | .error e => .error e
          | .ok (child_block, rest1, stop) =>
            let rest2 :=
              match stop with
              | .EndTag t => t :: rest1
              | .Continuation t => t :: rest1
              | .EndOfTokens => rest1
            build_tree_for_block_with_reason fuel
              (block_node.push_child (.Block child_block)) rest2
end

/-- `build_tree_for_block`: run the builder and put any returned token back. -/
def build_tree_for_block (fuel : Nat) (block_node : BlockNode) (tokens : List Token) :
    Except PypageError (BlockNode × List Token) :=
  match build_tree_for_block_with_reason fuel block_node tokens with
  | .error e => .error e
  | .ok (node1, rest, stop) =>
    match stop with
    | .EndTag t => .ok (node1, t :: rest)
    | .Continuation t => .ok (node1, t :: rest)
    | .EndOfTokens => .ok (node1, rest)

def build_tree : Nat → Node → List Token → Except PypageError (Node × List Token)
  | _, parent, [] => .ok (parent, [])
  | 0, _, _ :: _ => .error (.RuntimeError "out of fuel".data)
  | fuel+1, parent, token :: rest =>
    match token with
    | .Text text =>
      (match parent with
       | .Root children => build_tree fuel (.Root (children ++ [Node.Text text])) rest
       | .Block b => build_tree fuel (.Block (b.push_child (.Text text))) rest
       | _ => .error (.SyntaxError "Invalid parent for text node".data))
    | .Code src loc =>
      (match parent with
       | .Root children => build_tree fuel (.Root (children ++ [Node.Code src loc])) rest
       | .Block b => build_tree fuel (.Block (b.push_child (.Code src loc))) rest
       | _ => .error (.SyntaxError "Invalid parent for code node".data))
    | .Comment _ _ => build_tree fuel parent rest
    | .Block src loc =>
      match parse_block_type src loc with
      | .error e => .error e
      | .ok block_type =>
        match block_type with
        | .End end_block =>
          (match parent with
           | .Block parent_block =>
             if end_block.tag_to_end.isEmpty then .ok (parent, rest)
             else if end_matches_block end_block.tag_to_end parent_block.block_type then
               .ok (parent, rest)
             else
               .ok (parent, Token.Block src loc :: rest)
           | _ =>
             .error (.UnboundEndBlockTag ("end".data ++ end_block.tag_to_end)
               loc.line loc.column))
        | .Conditional cond =>
          if cond.tag_type = .Elif || cond.tag_type = .Else then
            (match parent with
             | .Block parent_block =>
               (match parent_block.block_type with
                | .Conditional _ =>
                  (match build_tree_for_block fuel (BlockNode.mk src loc [] block_type) rest with
                   | .error e => .error e
                   | .ok (bn, rest') => .ok (.Block (parent_block.set_continuation bn), rest'))
                | _ => .error (.ElifOrElseWithoutIf loc.line loc.column))
             | _ => .error (.ElifOrElseWithoutIf loc.line loc.column))
          else
            (match build_conditional_chain fuel (BlockNode.mk src loc [] block_type) rest with
             | .error e => .error e
             | .ok (bn, rest') =>
               match parent with
               | .Root children => build_tree fuel (.Root (children ++ [Node.Block bn])) rest'
               | .Block b => build_tree fuel (.Block (b.push_child (.Block bn))) rest'
               | _ => .error (.SyntaxError "Invalid parent for block node".data))
        | _ =>
          (match build_tree_for_block fuel (BlockNode.mk src loc [] block_type) rest with
           | .error e => .error e
           | .ok (bn, rest') =>
             match parent with
             | .Root children => build_tree fuel (.Root (children ++ [Node.Block bn])) rest'
             | .Block b => build_tree fuel (.Block (b.push_child (.Block bn))) rest'
             | _ => .error (.SyntaxError "Invalid parent for block node".data))

/-- `parse` from the source.  A token can be consumed again after a
push-back at most once per enclosing block, so `(n+1)^2` units of fuel
always suffice for `n` tokens. -/
def parse (src : List Char) : Except PypageError Node :=
  match lex src with
  | .error e => .error e
  | .ok tokens0 =>
    let tokens := prune_tokens tokens0
    match build_tree ((tokens.length + 1) * (tokens.length + 1)) (.Root []) tokens with
    | .error e => .error e
    | .ok (tree, _) => .ok tree

end Pypage

namespace Pypage

/-! ## Host model

The engine drives an embedded Python interpreter through a narrow interface:
evaluate an expression, execute statements, and step a generator object
(`__next__`).  The interpreter is external to the engine, so it is a
parameter of the evaluator.  The global dictionary that the engine itself
reads and writes (`set_item` / `del_item` / `get_item`) is modelled
explicitly, and every host call threads it (the Rust `globals` dict is
mutated in place, also when a call fails).

`PyValue` is a host-model approximation of Python values sufficient for the
engine's observations: the distinguished `None`, booleans, integers,
strings, list-like iterables and callables. -/

inductive PyValue where
  | none
  | bool (b : Bool)
  | int (n : Int)
  | str (s : List Char)
  | list (xs : List PyValue)
  | func (name : List Char) (arity : Nat)

mutual
/-- Python `str()` on the modelled values (`result.str()` in `run_code`). -/
def py_str : PyValue → List Char
  | .none => "None".data
  | .bool true => "True".data
  | .bool false => "False".data
  | .int n => (toString n).data
  | .str s => s
  | .list xs => ['['] ++ py_str_list xs ++ [']']
  | .func name _ => "<function ".data ++ name ++ ['>']

def py_str_list : List PyValue → List Char
  | [] => []
  | [x] => py_str x
  | x :: rest => py_str x ++ ", ".data ++ py_str_list rest
end

/-- Python truthiness (`is_truthy`). -/
def py_truthy : PyValue → Bool
  | .none => false
  | .bool b => b
  | .int n => decide (n ≠ 0)
  | .str s => !s.isEmpty
  | .list xs => !xs.isEmpty
  | .func _ _ => true

/-- The global binding environment (Python dict with string keys). -/
abbrev PyEnv := List (List Char × PyValue)

def env_lookup (name : List Char) : PyEnv → Option PyValue
  | [] => Option.none
  | (k, v) :: rest => if k = name then some v else env_lookup name rest

def env_set (name : List Char) (value : PyValue) : PyEnv → PyEnv
  | [] => [(name, value)]
  | (k, v) :: rest => if k = name then (k, value) :: rest else (k, v) :: env_set name value rest

def env_del (name : List Char) (e : PyEnv) : PyEnv :=
  e.filter (fun p => p.1 ≠ name)

def env_has (name : List Char) (e : PyEnv) : Bool :=
  (env_lookup name e).isSome

/-- The host interface: `eval` is `py.eval`, `run` is `py.run`, and
`iter g` lists the successive successful `__next__` results of the
generator object `g` (the Rust code treats any `__next__` failure,
`StopIteration` included, as the end of the loop, so a finite list of
values is a faithful view of a loop run). -/
structure Host where
  eval : List Char → PyEnv → (Except (List Char) PyValue) × PyEnv
  run : List Char → PyEnv → (Except (List Char) Unit) × PyEnv
  iter : PyValue → List PyValue

/-! ## Evaluator (`PypageExec` / `exec_tree`) -/

/-- `PypageExec::run_code`: unescape and trim, try to evaluate as an
expression, fall back to statement execution; a result whose string form is
`"None"` contributes nothing. -/
def run_code (host : Host) (code : List Char) (env : PyEnv) :
    (Except PypageError (List Char)) × PyEnv :=
  let trimmed_code := trim (unescape_str code)
  match host.eval trimmed_code env with
  | (.ok result, env') =>
    let result_str := py_str result
    (.ok (if result_str = "None".data then [] else result_str), env')
  | (.error _, env') =>
    match host.run trimmed_code env' with
    | (.ok _, env'') => (.ok [], env'')
    | (.error e, env'') => (.error (.PythonError e), env'')

/-- `PypageExec::eval_expression`: evaluate and test truthiness. -/
def eval_expression (host : Host) (expr : List Char) (env : PyEnv) :
    (Except PypageError Bool) × PyEnv :=
  match host.eval expr env with
  | (.ok v, env') => (.ok (py_truthy v), env')
  | (.error e, env') => (.error (.PythonError e), env')

/-- `PypageExec::backup_globals`: snapshot of the currently bound targets. -/
def backup_globals (names : List (List Char)) (env : PyEnv) : List (List Char × PyValue) :=
  match names with
  | [] => []
  | name :: rest =>
    match env_lookup name env with
    | some value => (name, value) :: backup_globals rest env
    | Option.none => backup_globals rest env

/-- `PypageExec::restore_globals`. -/
def restore_globals (backup : List (List Char × PyValue)) (env : PyEnv) : PyEnv :=
  match backup with
  | [] => env
  | (name, value) :: rest => restore_globals rest (env_set name value env)

/-- `PypageExec::delete_globals`. -/
def delete_globals (names : List (List Char)) (env : PyEnv) : PyEnv :=
  match names with
  | [] => env
  | name :: rest => delete_globals rest (if env_has name env then env_del name env else env)

/-- The Python source generated for a `def` block (the `format!` in the
`BlockType::Def` arm of `exec_tree`). -/
def def_func_code (funcname : List Char) (argcount : Nat) : List Char :=
  ['\n'] ++ "def ".data ++ funcname ++ "(*args):".data ++ ['\n'] ++
  "    if len(args) != ".data ++ (toString argcount).data ++ [':', '\n'] ++
  "        raise ValueError(\"Function \x27".data ++ funcname ++
  "\x27 expects ".data ++ (toString argcount).data ++
  " arguments, got ".data ++ ['{', '}'] ++ "\".format(len(args)))".data ++ ['\n'] ++
  "    # Function definitions are not fully implemented in this version".data ++ ['\n'] ++
  "    return \"\"".data ++ ['\n']

/-- `result.try_iter()` on a modelled value: lists and strings are
iterable (a string yields its characters as one-character strings);
other modelled values are not. -/
def py_try_iter : PyValue → Option (List PyValue)
  | .list xs => some xs
  | .str s => some (s.map (fun c => PyValue.str [c]))
  | _ => Option.none

/-- Positional binding of loop targets against unpacked values:
targets beyond the values are left unset, excess values are ignored. -/
def set_loop_targets (targets : List (List Char)) (values : List PyValue) (env : PyEnv) :
    PyEnv :=
  match targets, values with
  | [], _ => env
  | _ :: _, [] => env
  | t :: ts, v :: vs => set_loop_targets ts vs (env_set t v env)

mutual
def exec_tree : Nat → Host → Node → PyEnv → (Except PypageError (List Char)) × PyEnv
  | _, _, .Text text, env => (.ok text, env)
  | _, host, .Code src _, env => run_code host src env
  | _, _, .Comment _ _, env => (.ok [], env)
  | 0, _, .Root _, env => (.error (.RuntimeError "out of fuel".data), env)
  | 0, _, .Block _, env => (.error (.RuntimeError "out of fuel".data), env)
  | fuel+1, host, .Root children, env => exec_nodes fuel host children env
  | fuel+1, host, .Block b, env => exec_block fuel host b env

def exec_block : Nat → Host → BlockNode → PyEnv → (Except PypageError (List Char)) × PyEnv
  | 0, _, _, env => (.error (.RuntimeError "out of fuel".data), env)
  | fuel+1, host, .mk _ _ children block_type, env =>
    match block_type with
    | .Conditional cond =>
      (match eval_expression host cond.expr env with
       | (.error e, env') => (.error e, env')
       | (.ok true, env') => exec_nodes fuel host children env'
       | (.ok false, env') =>
         match cond.continuation with
         | some continuation => exec_block fuel host continuation env'
         | Option.none => (.ok [], env'))
    | .For for_block =>
      let backup := backup_globals for_block.targets env
      (match host.eval for_block.genexpr env with
       | (.error e, env1) => (.error (.PythonError e), env1)
       | (.ok generator, env1) =>
         match exec_for_loop fuel host for_block.targets children (host.iter generator) env1 [] with
         | (.error e, env2) => (.error e, env2)
         | (.ok output, env2) =>
           let env3 := delete_globals for_block.targets env2
           let env4 := restore_globals backup env3
           (.ok output, env4))
    | .While while_block =>
      (match (if while_block.dofirst then exec_nodes fuel host children env
              else (.ok [], env)) with
       | (.error e, env') => (.error e, env')
       | (.ok output0, env') =>
         match exec_while_loop fuel host while_block children env' output0 0 with
         | (r, env'', _) => (r, env''))
    | .Def def_block =>
      (match host.run (trim (def_func_code def_block.funcname def_block.argnames.length)) env with
       | (.ok _, env') => (.ok [], env')
       | (.error e, env') => (.error (.PythonError e), env'))
    | .Capture capture_block =>
      (match exec_nodes fuel host children env with
       | (.error e, env') => (.error e, env')
       | (.ok output, env') => (.ok [], env_set capture_block.varname (.str output) env'))
    | .Comment => (.ok [], env)
    | .End _ => (.ok [], env)

def exec_nodes : Nat → Host → List Node → PyEnv → (Except PypageError (List Char)) × PyEnv
  | _, _, [], env => (.ok [], env)
  | 0, _, _ :: _, env => (.error (.RuntimeError "out of fuel".data), env)
  | fuel+1, host, n :: ns, env =>
    match exec_tree fuel host n env with
    | (.error e, env') => (.error e, env')
    | (.ok s, env') =>
      match exec_nodes fuel host ns env' with
      | (.error e, env'') => (.error e, env'')
      | (.ok s', env'') => (.ok (s ++ s'), env'')

/-- The `loop { generator.call_method0("__next__") ... }` of the `For` arm.
Binding failures while unpacking and body failures propagate immediately;
the end of `values` is the `Err(_) => break` (StopIteration) case. -/
def exec_for_loop :
    Nat → Host → List (List Char) → List Node → List PyValue → PyEnv → List Char →
    (Except PypageError (List Char)) × PyEnv
  | _, _, _, _, [], env, output => (.ok output, env)
  | 0, _, _, _, _ :: _, env, _ => (.error (.RuntimeError "out of fuel".data), env)
  | fuel+1, host, targets, children, value :: rest, env, output =>
    let bound : Except PypageError PyEnv :=
      match targets with
      | [t] => .ok (env_set t value env)
      | _ =>
        match py_try_iter value with
        | some values => .ok (set_loop_targets targets values env)
        | Option.none => .error (.PythonError "TypeError: cannot unpack non-iterable object".data)
    match bound with
    | .error e => (.error e, env)
    | .ok env' =>
      match exec_nodes fuel host children env' with
      | (.error e, env'') => (.error e, env'')
      | (.ok s, env'') => exec_for_loop fuel host targets children rest env'' (output ++ s)

/-- The main loop of the `While` arm, additionally reporting the final
`iteration_count`.  With `slow` unset the loop breaks once the count
reaches `max_iterations = 10000`; the wall-clock guard (2 seconds) is not
representable in this embedding and is modelled as never firing, which is
one admissible timing of the real code. -/
def exec_while_loop :
    Nat → Host → WhileBlock → List Node → PyEnv → List Char → Nat →
    (Except PypageError (List Char)) × PyEnv × Nat
  | 0, _, _, _, env, _, count => (.error (.RuntimeError "out of fuel".data), env, count)
  | fuel+1, host, while_block, children, env, output, count =>
    match eval_expression host while_block.expr env with
    | (.error e, env') => (.error e, env', count)
    | (.ok false, env') => (.ok output, env', count)
    | (.ok true, env') =>
      match exec_nodes fuel host children env' with
      | (.error e, env'') => (.error e, env'', count)
      | (.ok s, env'') =>
        let output' := output ++ s
        let count' := count + 1
        if !while_block.slow && count' ≥ 10000 then
          (.ok output', env'', count')
        else
          exec_while_loop fuel host while_block children env'' output' count'
end


/-! ## Top level (`pypage_process`) -/

/-- The globals prepared by `PypageExec::new`: the three built-in names,
then the seed environment entries. -/
def initial_env (seed_env : PyEnv) : PyEnv :=
  let globals : PyEnv := []
  let globals := env_set "__package__".data .none globals
  let globals := env_set "__name__".data (.str "pypage_code".data) globals
  let globals := env_set "__doc__".data .none globals
  seed_env.foldl (fun g kv => env_set kv.1 kv.2 g) globals

/-- `pypage_process`, additionally exposing the final global environment. -/
def pypage_process_env (fuel : Nat) (host : Host) (source : List Char) (seed_env : PyEnv) :
    (Except PypageError (List Char)) × PyEnv :=
  match parse source with
  | .error e => (.error e, initial_env seed_env)
  | .ok tree => exec_tree fuel host tree (initial_env seed_env)

def pypage_process (fuel : Nat) (host : Host) (source : List Char) (seed_env : PyEnv) :
    Except PypageError (List Char) :=
  (pypage_process_env fuel host source seed_env).1

def pypage_version : List Char := "2.2.1".data

end Pypage

namespace Pypage

/-! ## Error discriminators and result predicates -/

def PypageError.is_expression_missing : PypageError → Bool
  | .ExpressionMissing _ _ _ => true
  | _ => false

def PypageError.is_expression_prohibited : PypageError → Bool
  | .ExpressionProhibited _ _ _ => true
  | _ => false

def PypageError.is_mismatching_end : PypageError → Bool
  | .MismatchingEndBlockTag _ _ _ _ => true
  | _ => false

def PypageError.is_def_arg_count_mismatch : PypageError → Bool
  | .InvalidDefBlockMismatchingArgCount _ _ => true
  | _ => false

/-- Whether the error of a failed result satisfies `p` (`false` on success). -/
def err_matches {α : Type} (p : PypageError → Bool) : Except PypageError α → Bool
  | .error e => p e
  | .ok _ => false

/-- `true` iff an error occurs while evaluating the evaluator itself can
produce: a propagated host error or fuel exhaustion. -/
def PypageError.is_exec_error : PypageError → Bool
  | .PythonError _ => true
  | .RuntimeError _ => true
  | _ => false

/-! ## Concrete sources used by the claims -/

def ex_if_empty : List Char := "{% if %}x{% endif %}".data

def ex_else_trailing : List Char := "{% if True %}x{% else False %}y{% endif %}".data

def ex_def_call : List Char := "{% def f x %}{% enddef %}{{ f(1, 2) }}".data

def ex_end_inner : List Char := "{% for x in y %}{% if z %}a{% endfor %}".data

def ex_end_root : List Char := "{% if z %}a{% endfor %}".data

def ex_for_err : List Char := "{% for x in nums %}{{ body }}{% endfor %}".data

def ex_for_ok : List Char := "{% for x in nums %}i{% endfor %}".data

def ex_comment : List Char := "{# outer {# inner #} still outer #}done".data

def ex_code : List Char := "{{ x }}".data

/-! ## Concrete hosts used as witnesses -/

/-- A host on which every expression evaluates to the Python string
`"None"` (a value distinct from `None` whose `str()` is `"None"`). -/
def host_str_none : Host where
  eval := fun _ e => (.ok (.str "None".data), e)
  run := fun _ e => (.ok (), e)
  iter := fun _ => []

/-- A host on which expression evaluation always fails and statement
execution always succeeds. -/
def host_stmt_only : Host where
  eval := fun _ e => (.error "invalid syntax".data, e)
  run := fun _ e => (.ok (), e)
  iter := fun _ => []

/-- A host on which every expression evaluates to `True`. -/
def host_true : Host where
  eval := fun _ e => (.ok (.bool true), e)
  run := fun _ e => (.ok (), e)
  iter := fun _ => []

/-- Host for the `for`-loop claims: `nums` yields the integers 1, 2, 3. -/
def host_for_ok : Host where
  eval := fun s e =>
    if s = "((x) for x in nums)".data then (.ok (.str "gen".data), e)
    else (.error "NameError".data, e)
  run := fun _ e => (.ok (), e)
  iter := fun v =>
    match v with
    | .str _ => [.int 1, .int 2, .int 3]
    | _ => []

/-- Host for the mid-loop-failure claim: `nums` yields 1 then 2, and the
body expression `body` succeeds while `x` is 1 but raises once `x` is 2. -/
def host_for_err : Host where
  eval := fun s e =>
    if s = "((x) for x in nums)".data then (.ok (.str "gen".data), e)
    else if s = "body".data then
      (match env_lookup "x".data e with
       | some (.int 1) => (.ok (.str "b".data), e)
       | _ => (.error "boom".data, e))
    else (.error "NameError".data, e)
  run := fun _ e => (.error "boom".data, e)
  iter := fun v =>
    match v with
    | .str _ => [.int 1, .int 2]
    | _ => []

/-- Host modelling Python's execution of the generated `def` stub for
`{% def f x %}`: running the stub source binds `f` to a one-argument
callable, and the call `f(1, 2)` raises the stub's `ValueError` (both as an
expression and as a statement). -/
def host_def_stub : Host where
  eval := fun s e =>
    if s = "f(1, 2)".data then
      (match env_lookup "f".data e with
       | some (.func _ 1) =>
         (.error "ValueError: Function \x27f\x27 expects 1 arguments, got 2".data, e)
       | _ => (.error "NameError: name \x27f\x27 is not defined".data, e))
    else (.error "NameError".data, e)
  run := fun s e =>
    if s = trim (def_func_code "f".data 1) then (.ok (), env_set "f".data (.func "f".data 1) e)
    else if s = "f(1, 2)".data then
      (.error "ValueError: Function \x27f\x27 expects 1 arguments, got 2".data, e)
    else (.ok (), e)
  iter := fun _ => []

/-- The two-character openers; a source containing none of them is
directive-free.  `no_directives` checks every adjacent character pair. -/
def no_directives : List Char → Bool
  | c1 :: c2 :: rest =>
    !(c1 = '{' && (c2 = '{' || c2 = '#' || c2 = '%')) && no_directives (c2 :: rest)
  | _ => true

end Pypage

namespace Pypage

/-- The value of the last entry for key `t` in a backup list, if any
(used to characterise `restore_globals`, which applies entries left to
right with later entries overriding earlier ones). -/
def find_last_val (t : List Char) : List (List Char × PyValue) → Option PyValue
  | [] => Option.none
  | (n, v) :: rest =>
    match find_last_val t rest with
    | some w => some w
    | Option.none => if n = t then some v else Option.none

end Pypage

namespace Pypage

/-! ## Environment lemmas -/

theorem env_lookup_env_set (n t : List Char) (v : PyValue) (e : PyEnv) :
    env_lookup t (env_set n v e) = if n = t then some v else env_lookup t e := by
  induction e with
  | nil => by_cases hnt : n = t <;> simp [env_set, env_lookup, hnt]
  | cons hd tl ih =>
    obtain ⟨k, w⟩ := hd
    by_cases hkn : k = n <;> by_cases hkt : k = t <;> by_cases hnt : n = t <;>
      simp_all [env_set, env_lookup]

theorem env_lookup_env_del (n t : List Char) (e : PyEnv) :
    env_lookup t (env_del n e) = if n = t then Option.none else env_lookup t e := by
  induction e with
  | nil => by_cases hnt : n = t <;> simp [env_del, env_lookup, hnt]
  | cons hd tl ih =>
    obtain ⟨k, w⟩ := hd
    by_cases hkn : k = n <;> by_cases hkt : k = t <;> by_cases hnt : n = t <;>
      simp_all [env_del, env_lookup, List.filter_cons]

theorem env_lookup_delete_globals_none (names : List (List Char)) (t : List Char)
    (e : PyEnv) (h : env_lookup t e = Option.none) :
    env_lookup t (delete_globals names e) = Option.none := by
  induction names generalizing e with
  | nil => simpa [delete_globals] using h
  | cons m rest ih =>
    simp only [delete_globals]
    apply ih
    by_cases hm : env_has m e
    · simp only [hm, if_true, env_lookup_env_del]
      by_cases hmt : m = t <;> simp [hmt, h]
    · simp [hm, h]

theorem env_lookup_delete_globals (names : List (List Char)) (t : List Char) (e : PyEnv)
    (h : t ∈ names) : env_lookup t (delete_globals names e) = Option.none := by
  induction names generalizing e with
  | nil => cases h
  | cons n rest ih =>
    rcases List.mem_cons.mp h with h1 | h2
    · subst h1
      simp only [delete_globals]
      apply env_lookup_delete_globals_none
      by_cases hset : env_has t e
      · simp [hset, env_lookup_env_del]
      · cases hlook : env_lookup t e with
        | some v => exact absurd (by simp [env_has, hlook]) hset
        | none => simp [env_has, hlook]
    · simp only [delete_globals]
      exact ih _ h2

theorem env_lookup_restore_globals (bk : List (List Char × PyValue)) (t : List Char)
    (e : PyEnv) :
    env_lookup t (restore_globals bk e) =
      (match find_last_val t bk with
       | some w => some w
       | Option.none => env_lookup t e) := by
  induction bk generalizing e with
  | nil => simp [restore_globals, find_last_val]
  | cons hd rest ih =>
    obtain ⟨n, v⟩ := hd
    simp only [restore_globals, find_last_val, ih]
    cases hfl : find_last_val t rest with
    | some w => simp
    | none =>
      by_cases hnt : n = t <;> simp [hnt, env_lookup_env_set]

theorem backup_globals_mem_val (names : List (List Char)) (env : PyEnv)
    (t : List Char) (w : PyValue) (h : (t, w) ∈ backup_globals names env) :
    env_lookup t env = some w := by
  induction names with
  | nil => simp [backup_globals] at h
  | cons n rest ih =>
    simp only [backup_globals] at h
    cases hl : env_lookup n env with
    | some v =>
      rw [hl] at h
      rcases List.mem_cons.mp h with h1 | h2
      · injection h1 with ht hw
        subst ht
        subst hw
        exact hl
      · exact ih h2
    | none =>
      rw [hl] at h
      exact ih h

theorem backup_globals_mem_of_lookup (names : List (List Char)) (env : PyEnv)
    (t : List Char) (v : PyValue) (ht : t ∈ names) (hl : env_lookup t env = some v) :
    (t, v) ∈ backup_globals names env := by
  induction names with
  | nil => cases ht
  | cons n rest ih =>
    simp only [backup_globals]
    rcases List.mem_cons.mp ht with h1 | h2
    · subst h1
      rw [hl]
      exact List.mem_cons_self _ _
    · cases hn : env_lookup n env with
      | some w => exact List.mem_cons_of_mem _ (ih h2)
      | none => exact ih h2

theorem find_last_val_none (bk : List (List Char × PyValue)) (t : List Char)
    (h : find_last_val t bk = Option.none) : ∀ w, (t, w) ∉ bk := by
  induction bk with
  | nil => intro w hmem; cases hmem
  | cons hd rest ih =>
    obtain ⟨n, v⟩ := hd
    intro w hmem
    simp only [find_last_val] at h
    cases hfl : find_last_val t rest with
    | some w' => rw [hfl] at h; cases h
    | none =>
      rw [hfl] at h
      rcases List.mem_cons.mp hmem with h1 | h2
      · injection h1 with hn hv
        subst hn
        simp at h
      · exact ih hfl w h2

theorem find_last_val_mem_aux (bk : List (List Char × PyValue)) (t : List Char) (w : PyValue)
    (h : find_last_val t bk = some w) : (t, w) ∈ bk := by
  induction bk with
  | nil => simp [find_last_val] at h
  | cons hd rest ih =>
    obtain ⟨n, v⟩ := hd
    simp only [find_last_val] at h
    cases hfl : find_last_val t rest with
    | some w' =>
      rw [hfl] at h
      injection h with hw
      subst hw
      exact List.mem_cons_of_mem _ (ih hfl)
    | none =>
      rw [hfl] at h
      by_cases hnt : n = t
      · subst hnt
        simp at h
        subst h
        exact List.mem_cons_self _ _
      · simp [hnt] at h

theorem find_last_val_backup_some (names : List (List Char)) (env : PyEnv)
    (t : List Char) (w : PyValue)
    (h : find_last_val t (backup_globals names env) = some w) :
    env_lookup t env = some w := by
  have hmem := find_last_val_mem_aux (backup_globals names env) t w h
  exact backup_globals_mem_val names env t w hmem

end Pypage

namespace Pypage

/-- The delete-then-restore epilogue of a `for` block puts every target
back to its pre-loop binding, whatever the loop did to the environment. -/
theorem for_scope_restore (targets : List (List Char)) (env env2 : PyEnv)
    (t : List Char) (ht : t ∈ targets) :
    env_lookup t (restore_globals (backup_globals targets env)
      (delete_globals targets env2)) = env_lookup t env := by
  rw [env_lookup_restore_globals]
  cases hfl : find_last_val t (backup_globals targets env) with
  | some w =>
    simp only
    exact (find_last_val_backup_some targets env t w hfl).symm
  | none =>
    simp only
    rw [env_lookup_delete_globals targets t env2 ht]
    cases hl : env_lookup t env with
    | some v =>
      exact absurd (backup_globals_mem_of_lookup targets env t v ht hl)
        (find_last_val_none _ t hfl v)
    | none => rfl

/-- C5: for-loop scope neutrality.  If a `for` block completes without a
host error, every target name is bound exactly as before the loop
(including being unbound), regardless of what the loop itself did. -/
theorem c5_for_loop_scope_neutrality
    (fuel : Nat) (host : Host) (src : List Char) (loc : Location)
    (children : List Node) (fb : ForBlock) (env : PyEnv)
    (out : List Char) (env' : PyEnv)
    (h : exec_tree fuel host (.Block (.mk src loc children (.For fb))) env = (.ok out, env'))
    (t : List Char) (ht : t ∈ fb.targets) :
    env_lookup t env' = env_lookup t env := by
  cases fuel with
  | zero => simp [exec_tree] at h
  | succ f =>
    simp only [exec_tree] at h
    cases f with
    | zero => simp [exec_block] at h
    | succ g =>
      simp only [exec_block] at h
      rcases heval : host.eval fb.genexpr env with ⟨r1, env1⟩
      rw [heval] at h
      cases r1 with
      | error e => simp at h
      | ok generator =>
        simp only at h
        rcases hloop : exec_for_loop g host fb.targets children (host.iter generator) env1 []
          with ⟨r2, env2⟩
        rw [hloop] at h
        cases r2 with
        | error e => simp at h
        | ok o =>
          simp only [Prod.mk.injEq] at h
          obtain ⟨-, henv⟩ := h
          subst henv
          exact for_scope_restore fb.targets env env2 t ht

end Pypage

namespace Pypage

/-! ## Trim lemmas: a trimmed string has no trailing whitespace, which makes
the `ExpressionMissing` / `ExpressionProhibited` checks of
`parse_block_type` unreachable. -/

theorem dropWhile_head_false (p : Char → Bool) (l : List Char) (c : Char) (cs : List Char)
    (h : l.dropWhile p = c :: cs) : p c = false := by
  induction l with
  | nil => simp at h
  | cons a l ih =>
    by_cases hp : p a
    · rw [List.dropWhile_cons_of_pos hp] at h
      exact ih h
    · rw [List.dropWhile_cons_of_neg hp] at h
      injection h with h1 h2
      subst h1
      simpa using hp

theorem trim_reverse_eq (s : List Char) :
    (trim s).reverse = (trim_start s).reverse.dropWhile Char.isWhitespace := by
  simp [trim, trim_end]

theorem trim_eq_nil_all_ws (r : List Char) (h : trim r = []) :
    ∀ c ∈ r, c.isWhitespace = true := by
  intro c hc
  have h1 : (trim_start r).reverse.dropWhile Char.isWhitespace = [] := by
    have := trim_reverse_eq r
    rw [h] at this
    exact this.symm
  have h2 : ∀ x ∈ (trim_start r).reverse, x.isWhitespace = true :=
    List.dropWhile_eq_nil_iff.mp h1
  have h3 : ∀ x ∈ trim_start r, x.isWhitespace = true := by
    intro x hx
    exact h2 x (List.mem_reverse.mpr hx)
  have h4 : List.takeWhile Char.isWhitespace r ++ List.dropWhile Char.isWhitespace r = r :=
    List.takeWhile_append_dropWhile Char.isWhitespace r
  rw [← h4] at hc
  rcases List.mem_append.mp hc with h5 | h5
  · exact List.mem_takeWhile_imp h5
  · exact h3 c h5

/-- If a trimmed string is `pre ++ " " ++ r`, then `r` cannot be all
whitespace, since the trimmed string would then end in whitespace. -/
theorem trim_tail_space_ne_nil (u : List Char) (pre r : List Char)
    (h : trim u = pre ++ ' ' :: r) : trim r ≠ [] := by
  intro hnil
  have hall : ∀ c ∈ r, c.isWhitespace = true := trim_eq_nil_all_ws r hnil
  have h1 : (trim u).reverse = (trim_start u).reverse.dropWhile Char.isWhitespace :=
    trim_reverse_eq u
  have h2 : (trim u).reverse = r.reverse ++ ' ' :: pre.reverse := by
    rw [h]; simp
  rcases hd : (trim_start u).reverse.dropWhile Char.isWhitespace with _ | ⟨e, es⟩
  · rw [hd] at h1
    rw [h2] at h1
    exact absurd h1 (by simp)
  · have hws : Char.isWhitespace e = false := dropWhile_head_false _ _ _ _ hd
    have h3 : r.reverse ++ ' ' :: pre.reverse = e :: es := by
      rw [← h2, h1, hd]
    cases r with
    | nil =>
      simp at h3
      obtain ⟨he, -⟩ := h3
      rw [← he] at hws
      simp [Char.isWhitespace] at hws
    | cons a as =>
      rcases hrr : (a :: as).reverse with _ | ⟨d, ds⟩
      · simp at hrr
      · rw [hrr] at h3
        simp only [List.cons_append] at h3
        injection h3 with h4 _
        have hdmem : d ∈ (a :: as).reverse := by
          rw [hrr]; exact List.mem_cons_self _ _
        have hd2 : d.isWhitespace = true := hall d (List.mem_reverse.mp hdmem)
        rw [h4] at hd2
        rw [hd2] at hws
        cases hws

theorem find_for_targets_err (s : List Char) (e : PypageError)
    (h : find_for_targets s = .error e) : e = .IncorrectForTag s := by
  simp only [find_for_targets] at h
  split at h
  · injection h with h1
    exact h1.symm
  · cases h

/-- Error classification for `parse_block_type`: the reachable errors are
`UnknownTag`, `IncorrectForTag`, `InvalidDefBlockFunctionOrArgName` and
`InvalidCaptureBlockVariableName`.  In particular the `ExpressionMissing`
and `ExpressionProhibited` constructions are dead code: the body is trimmed
before the `"if "`/`"elif "` prefix tests, so a conditional tag that passes
those tests always has a nonempty expression, and `else` is only recognised
with exactly the body `else` (whose expression is the literal `True`). -/
theorem parse_block_type_err_classification (src : List Char) (loc : Location)
    (e : PypageError) (h : parse_block_type src loc = .error e) :
    e.is_expression_missing = false ∧ e.is_expression_prohibited = false
    ∧ e.is_mismatching_end = false ∧ e.is_def_arg_count_mismatch = false := by
  simp only [parse_block_type] at h
  by_cases h0 : ((trim (unescape_str src)).isEmpty
      || "end".data.isPrefixOf (trim (unescape_str src))) = true
  · rw [if_pos h0] at h
    cases h
  · rw [if_neg h0] at h
    by_cases h1 : trim (unescape_str src) = "comment".data
    · rw [if_pos h1] at h
      cases h
    · rw [if_neg h1] at h
      by_cases h2 : ("if ".data.isPrefixOf (trim (unescape_str src))
          || "elif ".data.isPrefixOf (trim (unescape_str src))
          || decide (trim (unescape_str src) = "else".data)) = true
      · rw [if_pos h2] at h
        by_cases hif : List.isPrefixOf ['i', 'f', ' '] (trim (unescape_str src)) = true
        · obtain ⟨r, hr⟩ := List.isPrefixOf_iff_prefix.mp hif
          have hkey : trim ((trim (unescape_str src)).drop 3) ≠ [] := by
            have hdrop : (trim (unescape_str src)).drop 3 = r := by
              conv_lhs => rw [← hr]
              rfl
            rw [hdrop]
            exact trim_tail_space_ne_nil (unescape_str src) ['i', 'f'] r hr.symm
          have hkey' : (trim ((trim (unescape_str src)).drop 3)).isEmpty = false := by
            rcases hc : trim ((trim (unescape_str src)).drop 3) with _ | ⟨c, cs⟩
            · exact absurd hc hkey
            · rfl
          simp [hif, hkey'] at h
        · by_cases helif : List.isPrefixOf ['e', 'l', 'i', 'f', ' '] (trim (unescape_str src)) = true
          · obtain ⟨r, hr⟩ := List.isPrefixOf_iff_prefix.mp helif
            have hkey : trim ((trim (unescape_str src)).drop 5) ≠ [] := by
              have hdrop : (trim (unescape_str src)).drop 5 = r := by
                conv_lhs => rw [← hr]
                rfl
              rw [hdrop]
              exact trim_tail_space_ne_nil (unescape_str src) ['e', 'l', 'i', 'f'] r hr.symm
            have hkey' : (trim ((trim (unescape_str src)).drop 5)).isEmpty = false := by
              rcases hc : trim ((trim (unescape_str src)).drop 5) with _ | ⟨c, cs⟩
              · exact absurd hc hkey
              · rfl
            simp [hif, helif, hkey'] at h
          · simp [hif, helif] at h
      · rw [if_neg h2] at h
        by_cases h3 : "for ".data.isPrefixOf (trim (unescape_str src)) = true
        · rw [if_pos h3] at h
          cases hft : find_for_targets (trim (unescape_str src)) with
          | error e' =>
            rw [hft] at h
            injection h with h4
            subst h4
            have := find_for_targets_err _ _ hft
            subst this
            exact ⟨rfl, rfl, rfl, rfl⟩
          | ok targets =>
            rw [hft] at h
            cases h
        · rw [if_neg h3] at h
          by_cases h4 : "while ".data.isPrefixOf (trim (unescape_str src)) = true
          · rw [if_pos h4] at h
            cases h
          · rw [if_neg h4] at h
            by_cases h5 : "def ".data.isPrefixOf (trim (unescape_str src)) = true
            · rw [if_pos h5] at h
              split at h
              · injection h with h6
                subst h6
                exact ⟨rfl, rfl, rfl, rfl⟩
              · split at h
                · injection h with h6
                  subst h6
                  exact ⟨rfl, rfl, rfl, rfl⟩
                · cases h
            · rw [if_neg h5] at h
              by_cases h6 : "capture ".data.isPrefixOf (trim (unescape_str src)) = true
              · rw [if_pos h6] at h
                by_cases h7 : (!is_identifier (trim ((trim (unescape_str src)).drop 8))) = true
                · rw [if_pos h7] at h
                  injection h with h8
                  subst h8
                  exact ⟨rfl, rfl, rfl, rfl⟩
                · rw [if_neg h7] at h
                  cases h
              · rw [if_neg h6] at h
                injection h with h8
                subst h8
                exact ⟨rfl, rfl, rfl, rfl⟩

end Pypage

namespace Pypage

/-- C1 (code bug): the spec requires `{% if %}x{% endif %}` to fail with
`ExpressionMissing`, but the code trims the tag body before testing for the
`"if "` prefix, so the body `if` never enters the conditional branch and the
parse fails with `UnknownTag` instead; the `ExpressionMissing` construction
in `parse_block_type` is unreachable for every input. -/
theorem c1_if_empty_expression_raises_unknown_tag :
    parse ex_if_empty = .error (.UnknownTag "if".data 1 0)
    ∧ ∀ (src : List Char) (loc : Location),
        err_matches PypageError.is_expression_missing (parse_block_type src loc) = false := by
  constructor
  · rfl
  · intro src loc
    cases hp : parse_block_type src loc with
    | ok _ => rfl
    | error e => exact (parse_block_type_err_classification src loc e hp).1

/-- C2 (code bug): the spec requires an `else` tag with a trailing
expression (other than `True`) to fail with `ExpressionProhibited`, but the
code only recognises the exact trimmed body `else`, so `{% else False %}`
is an unknown tag; the `ExpressionProhibited` construction in
`parse_block_type` is unreachable for every input. -/
theorem c2_else_trailing_expression_raises_unknown_tag :
    parse ex_else_trailing = .error (.UnknownTag "else False".data 1 14)
    ∧ ∀ (src : List Char) (loc : Location),
        err_matches PypageError.is_expression_prohibited (parse_block_type src loc) = false := by
  constructor
  · rfl
  · intro src loc
    cases hp : parse_block_type src loc with
    | ok _ => rfl
    | error e => exact (parse_block_type_err_classification src loc e hp).2.1

/-! ## Lexer error classification -/

theorem lex_finalize_err_classification (src : List Char) (ct : TokenInProgress)
    (toks : List Token) (e : PypageError) (h : lex_finalize src ct toks = .error e) :
    e.is_mismatching_end = false ∧ e.is_def_arg_count_mismatch = false := by
  cases ct with
  | None => cases h
  | Text start =>
    simp only [lex_finalize] at h
    split at h <;> cases h
  | Code start loc =>
    injection h with h1
    subst h1
    exact ⟨rfl, rfl⟩
  | Comment start loc =>
    injection h with h1
    subst h1
    exact ⟨rfl, rfl⟩
  | Block start loc =>
    injection h with h1
    subst h1
    exact ⟨rfl, rfl⟩

theorem lex_go_err_classification (src : List Char) : ∀ (fuel : Nat)
    (rem : List Char) (i : Nat) (ct : TokenInProgress) (d ln nl : Nat)
    (toks : List Token) (e : PypageError),
    lex_go src fuel rem i ct d ln nl toks = .error e →
    e.is_mismatching_end = false ∧ e.is_def_arg_count_mismatch = false := by
  intro fuel
  induction fuel with
  | zero =>
    intro rem i ct d ln nl toks e h
    cases rem with
    | nil => exact lex_finalize_err_classification src ct toks e h
    | cons c rest =>
      injection h with h1
      subst h1
      exact ⟨rfl, rfl⟩
  | succ f ih =>
    intro rem i ct d ln nl toks e h
    cases rem with
    | nil => exact lex_finalize_err_classification src ct toks e h
    | cons c rest =>
      simp only [lex_go] at h
      cases ct <;>
        (repeat' split at h) <;>
        first
          | exact ih _ _ _ _ _ _ _ _ h
          | (injection h with h1; subst h1; exact ⟨rfl, rfl⟩)

theorem lex_err_classification (src : List Char) (e : PypageError)
    (h : lex src = .error e) :
    e.is_mismatching_end = false ∧ e.is_def_arg_count_mismatch = false :=
  lex_go_err_classification src _ _ _ _ _ _ _ _ e h

end Pypage

namespace Pypage

theorem parse_block_type_err_pair (src : List Char) (loc : Location) (e : PypageError)
    (h : parse_block_type src loc = .error e) :
    e.is_mismatching_end = false ∧ e.is_def_arg_count_mismatch = false :=
  ⟨(parse_block_type_err_classification src loc e h).2.2.1,
   (parse_block_type_err_classification src loc e h).2.2.2⟩

/-! ## Parser error classification: the tree builder never constructs
`MismatchingEndBlockTag` or `InvalidDefBlockMismatchingArgCount`. -/

theorem build_err_classification : ∀ (fuel : Nat),
    (∀ (node : BlockNode) (toks : List Token) (e : PypageError),
        build_conditional_chain fuel node toks = .error e →
        e.is_mismatching_end = false ∧ e.is_def_arg_count_mismatch = false)
    ∧ (∀ (node : BlockNode) (toks : List Token) (e : PypageError),
        build_tree_for_block_with_reason fuel node toks = .error e →
        e.is_mismatching_end = false ∧ e.is_def_arg_count_mismatch = false) := by
  intro fuel
  induction fuel with
  | zero =>
    constructor
    · intro node toks e h
      injection h with h1
      subst h1
      exact ⟨rfl, rfl⟩
    · intro node toks e h
      cases toks with
      | nil => cases h
      | cons t ts =>
        injection h with h1
        subst h1
        exact ⟨rfl, rfl⟩
  | succ f ih =>
    obtain ⟨ihc, ihw⟩ := ih
    constructor
    · intro node toks e h
      simp only [build_conditional_chain] at h
      (repeat' split at h) <;>
        try (first
          | cases h
          | exact ihw _ _ _ h
          | exact ihc _ _ _ h
          | exact ⟨rfl, rfl⟩
          | (injection h with h1; subst h1; exact ⟨rfl, rfl⟩)
          | (injection h with h1; subst h1;
             solve_by_elim [ihw, ihc, parse_block_type_err_pair]))
      all_goals solve_by_elim [ihw, ihc, parse_block_type_err_pair]
    · intro node toks e h
      cases toks with
      | nil => cases h
      | cons token rest =>
        simp only [build_tree_for_block_with_reason] at h
        cases token <;>
          (repeat' split at h) <;>
          try (first
            | cases h
            | exact ihw _ _ _ h
            | exact ihc _ _ _ h
            | exact ⟨rfl, rfl⟩
            | (injection h with h1; subst h1; exact ⟨rfl, rfl⟩)
            | (injection h with h1; subst h1;
               solve_by_elim [ihw, ihc, parse_block_type_err_pair]))
        all_goals solve_by_elim [ihw, ihc, parse_block_type_err_pair]

theorem build_tree_for_block_err_classification (fuel : Nat) (node : BlockNode)
    (toks : List Token) (e : PypageError) (h : build_tree_for_block fuel node toks = .error e) :
    e.is_mismatching_end = false ∧ e.is_def_arg_count_mismatch = false := by
  simp only [build_tree_for_block] at h
  (repeat' split at h) <;>
    try (first
      | cases h
      | (injection h with h1; subst h1;
         solve_by_elim [(build_err_classification fuel).2]))
  all_goals solve_by_elim [(build_err_classification fuel).2]

theorem build_tree_err_classification : ∀ (fuel : Nat) (parent : Node)
    (toks : List Token) (e : PypageError), build_tree fuel parent toks = .error e →
    e.is_mismatching_end = false ∧ e.is_def_arg_count_mismatch = false := by
  intro fuel
  induction fuel with
  | zero =>
    intro parent toks e h
    cases toks with
    | nil => cases h
    | cons t ts =>
      injection h with h1
      subst h1
      exact ⟨rfl, rfl⟩
  | succ f ih =>
    intro parent toks e h
    cases toks with
    | nil => cases h
    | cons token rest =>
      simp only [build_tree] at h
      cases token <;>
        (repeat' split at h) <;>
        try (first
          | cases h
          | exact ih _ _ _ h
          | exact ⟨rfl, rfl⟩
          | (injection h with h1; subst h1; exact ⟨rfl, rfl⟩)
          | (injection h with h1; subst h1;
             solve_by_elim [ih, (build_err_classification f).1,
               build_tree_for_block_err_classification f, parse_block_type_err_pair]))
      all_goals solve_by_elim [ih, (build_err_classification f).1,
        build_tree_for_block_err_classification f, parse_block_type_err_pair]

theorem parse_err_classification (src : List Char) (e : PypageError)
    (h : parse src = .error e) :
    e.is_mismatching_end = false ∧ e.is_def_arg_count_mismatch = false := by
  simp only [parse] at h
  cases hlex : lex src with
  | error e1 =>
    rw [hlex] at h
    simp only at h
    injection h with h1
    exact h1 ▸ lex_err_classification src e1 hlex
  | ok tokens0 =>
    rw [hlex] at h
    simp only at h
    cases hbt : build_tree (((prune_tokens tokens0).length + 1) *
        ((prune_tokens tokens0).length + 1)) (.Root []) (prune_tokens tokens0) with
    | error e2 =>
      rw [hbt] at h
      injection h with h1
      exact h1 ▸ build_tree_err_classification _ _ _ e2 hbt
    | ok p =>
      obtain ⟨tree, rest⟩ := p
      rw [hbt] at h
      cases h

end Pypage

namespace Pypage

/-! ## Evaluator error classification: the evaluator only ever reports
propagated host errors (`PythonError`) or fuel exhaustion; in particular it
never constructs `InvalidDefBlockMismatchingArgCount`. -/

theorem run_code_err_pair (host : Host) (code : List Char) (env : PyEnv)
    (e : PypageError) (env' : PyEnv) (h : run_code host code env = (.error e, env')) :
    e.is_mismatching_end = false ∧ e.is_def_arg_count_mismatch = false := by
  simp only [run_code] at h
  (repeat' split at h) <;>
    first
      | (simp at h; done)
      | (simp only [Prod.mk.injEq] at h
         obtain ⟨h1, -⟩ := h
         injection h1 with h3
         subst h3
         exact ⟨rfl, rfl⟩)

theorem eval_expression_err_pair (host : Host) (expr : List Char) (env : PyEnv)
    (e : PypageError) (env' : PyEnv)
    (h : eval_expression host expr env = (.error e, env')) :
    e.is_mismatching_end = false ∧ e.is_def_arg_count_mismatch = false := by
  simp only [eval_expression] at h
  (repeat' split at h) <;>
    first
      | (simp at h; done)
      | (simp only [Prod.mk.injEq] at h
         obtain ⟨h1, -⟩ := h
         injection h1 with h3
         subst h3
         exact ⟨rfl, rfl⟩)

theorem exec_err_classification : ∀ (fuel : Nat),
    (∀ (host : Host) (node : Node) (env : PyEnv) (e : PypageError) (env' : PyEnv),
        exec_tree fuel host node env = (.error e, env') →
        e.is_mismatching_end = false ∧ e.is_def_arg_count_mismatch = false)
    ∧ (∀ (host : Host) (b : BlockNode) (env : PyEnv) (e : PypageError) (env' : PyEnv),
        exec_block fuel host b env = (.error e, env') →
        e.is_mismatching_end = false ∧ e.is_def_arg_count_mismatch = false)
    ∧ (∀ (host : Host) (ns : List Node) (env : PyEnv) (e : PypageError) (env' : PyEnv),
        exec_nodes fuel host ns env = (.error e, env') →
        e.is_mismatching_end = false ∧ e.is_def_arg_count_mismatch = false)
    ∧ (∀ (host : Host) (ts : List (List Char)) (cs : List Node) (vs : List PyValue)
        (env : PyEnv) (out : List Char) (e : PypageError) (env' : PyEnv),
        exec_for_loop fuel host ts cs vs env out = (.error e, env') →
        e.is_mismatching_end = false ∧ e.is_def_arg_count_mismatch = false)
    ∧ (∀ (host : Host) (wb : WhileBlock) (cs : List Node) (env : PyEnv) (out : List Char)
        (c : Nat) (e : PypageError) (env' : PyEnv) (c' : Nat),
        exec_while_loop fuel host wb cs env out c = (.error e, env', c') →
        e.is_mismatching_end = false ∧ e.is_def_arg_count_mismatch = false) := by
  intro fuel
  induction fuel with
  | zero =>
    refine ⟨?_, ?_, ?_, ?_, ?_⟩
    · intro host node env e env' h
      cases node <;> simp only [exec_tree] at h <;>
        first
          | (simp at h; done)
          | solve_by_elim [run_code_err_pair]
          | (subst e; exact ⟨rfl, rfl⟩)
          | (simp only [Prod.mk.injEq] at h
             obtain ⟨h1, -⟩ := h
             first
               | (injection h1; done)
               | (injection h1 with h3; subst h3; exact ⟨rfl, rfl⟩))
    · intro host b env e env' h
      simp only [exec_block, Prod.mk.injEq] at h
      obtain ⟨h1, -⟩ := h
      injection h1 with h3
      subst h3
      exact ⟨rfl, rfl⟩
    · intro host ns env e env' h
      cases ns with
      | nil => simp [exec_nodes] at h
      | cons n nrest =>
        simp only [exec_nodes, Prod.mk.injEq] at h
        obtain ⟨h1, -⟩ := h
        injection h1 with h3
        subst h3
        exact ⟨rfl, rfl⟩
    · intro host ts cs vs env out e env' h
      cases vs with
      | nil => simp [exec_for_loop] at h
      | cons v vrest =>
        simp only [exec_for_loop, Prod.mk.injEq] at h
        obtain ⟨h1, -⟩ := h
        injection h1 with h3
        subst h3
        exact ⟨rfl, rfl⟩
    · intro host wb cs env out c e env' c' h
      simp only [exec_while_loop, Prod.mk.injEq] at h
      obtain ⟨h1, -⟩ := h
      injection h1 with h3
      subst h3
      exact ⟨rfl, rfl⟩
  | succ f ih =>
    obtain ⟨iht, ihb, ihn, ihf, ihw⟩ := ih
    refine ⟨?_, ?_, ?_, ?_, ?_⟩
    · intro host node env e env' h
      cases node <;> simp only [exec_tree] at h <;>
        first
          | (simp at h; done)
          | (subst e; exact ⟨rfl, rfl⟩)
          | solve_by_elim [run_code_err_pair, iht, ihb, ihn]
    · intro host b env e env' h
      obtain ⟨src, loc, children, block_type⟩ := b
      cases block_type with
      | Conditional cond =>
        simp only [exec_block] at h
        rcases hev : eval_expression host cond.expr env with ⟨r1, env1⟩
        rw [hev] at h
        cases r1 with
        | error e1 =>
          simp only [Prod.mk.injEq] at h
          obtain ⟨h1, -⟩ := h
          injection h1 with h3
          subst h3
          exact eval_expression_err_pair _ _ _ _ _ hev
        | ok b =>
          cases b with
          | true => exact ihn _ _ _ _ _ h
          | false =>
            cases hk : cond.continuation with
            | some k =>
              rw [hk] at h
              exact ihb _ _ _ _ _ h
            | none =>
              rw [hk] at h
              simp at h
      | For fb =>
        simp only [exec_block] at h
        rcases heval : host.eval fb.genexpr env with ⟨r1, env1⟩
        rw [heval] at h
        cases r1 with
        | error e1 =>
          simp only [Prod.mk.injEq] at h
          obtain ⟨h1, -⟩ := h
          injection h1 with h3
          subst h3
          exact ⟨rfl, rfl⟩
        | ok generator =>
          simp only at h
          rcases hloop : exec_for_loop f host fb.targets children (host.iter generator) env1 []
            with ⟨r2, env2⟩
          rw [hloop] at h
          cases r2 with
          | error e2 =>
            simp only [Prod.mk.injEq] at h
            obtain ⟨h1, -⟩ := h
            injection h1 with h3
            subst h3
            exact ihf _ _ _ _ _ _ _ _ hloop
          | ok o => simp at h
      | While wb =>
        simp only [exec_block] at h
        rcases hdo0 : (if wb.dofirst = true then exec_nodes f host children env
            else (Except.ok [], env)) with ⟨r0, env0⟩
        rw [hdo0] at h
        cases r0 with
        | error e1 =>
          simp only [Prod.mk.injEq] at h
          obtain ⟨h1, -⟩ := h
          injection h1 with h3
          subst h3
          split at hdo0
          · exact ihn _ _ _ _ _ hdo0
          · simp at hdo0
        | ok out0 =>
          simp only at h
          rcases hwl : exec_while_loop f host wb children env0 out0 0 with ⟨r2, env2, c2⟩
          rw [hwl] at h
          simp only [Prod.mk.injEq] at h
          obtain ⟨h1, -⟩ := h
          subst h1
          exact ihw _ _ _ _ _ _ _ _ _ hwl
      | Def db =>
        simp only [exec_block] at h
        rcases hrun : host.run (trim (def_func_code db.funcname db.argnames.length)) env
          with ⟨r1, env1⟩
        rw [hrun] at h
        cases r1 with
        | error e1 =>
          simp only [Prod.mk.injEq] at h
          obtain ⟨h1, -⟩ := h
          injection h1 with h3
          subst h3
          exact ⟨rfl, rfl⟩
        | ok u => simp at h
      | Capture cb =>
        simp only [exec_block] at h
        rcases hcn : exec_nodes f host children env with ⟨r1, env1⟩
        rw [hcn] at h
        cases r1 with
        | error e1 =>
          simp only [Prod.mk.injEq] at h
          obtain ⟨h1, -⟩ := h
          injection h1 with h3
          subst h3
          exact ihn _ _ _ _ _ hcn
        | ok o => simp at h
      | Comment => simp [exec_block] at h
      | End eb => simp [exec_block] at h
    · intro host ns env e env' h
      cases ns with
      | nil => simp [exec_nodes] at h
      | cons n nrest =>
        simp only [exec_nodes] at h
        rcases h1 : exec_tree f host n env with ⟨r1, env1⟩
        rw [h1] at h
        cases r1 with
        | error e1 =>
          simp only [Prod.mk.injEq] at h
          obtain ⟨h2, -⟩ := h
          injection h2 with h3
          subst h3
          exact iht _ _ _ _ _ h1
        | ok s =>
          simp only at h
          rcases h2 : exec_nodes f host nrest env1 with ⟨r2, env2⟩
          rw [h2] at h
          cases r2 with
          | error e2 =>
            simp only [Prod.mk.injEq] at h
            obtain ⟨h3, -⟩ := h
            injection h3 with h4
            subst h4
            exact ihn _ _ _ _ _ h2
          | ok s2 => simp at h
    · intro host ts cs vs env out e env' h
      cases vs with
      | nil => simp [exec_for_loop] at h
      | cons v vrest =>
        simp only [exec_for_loop] at h
        split at h
        · simp only [Prod.mk.injEq] at h
          obtain ⟨h1, -⟩ := h
          injection h1 with h3
          subst h3
          first
            | exact ⟨rfl, rfl⟩
            | (rename_i hbound
               (repeat' split at hbound) <;> first | (simp at hbound; done) |
                 (injection hbound with h5; subst h5; exact ⟨rfl, rfl⟩))
        · rename_i env1 hbound
          rcases h2 : exec_nodes f host cs env1 with ⟨r2, env2⟩
          rw [h2] at h
          cases r2 with
          | error e2 =>
            simp only [Prod.mk.injEq] at h
            obtain ⟨h3, -⟩ := h
            injection h3 with h4
            subst h4
            exact ihn _ _ _ _ _ h2
          | ok s2 =>
            simp only at h
            exact ihf _ _ _ _ _ _ _ _ h
    · intro host wb cs env out c e env' c' h
      simp only [exec_while_loop] at h
      rcases hev : eval_expression host wb.expr env with ⟨r1, env1⟩
      rw [hev] at h
      cases r1 with
      | error e1 =>
        simp only [Prod.mk.injEq] at h
        obtain ⟨h1, -⟩ := h
        injection h1 with h3
        subst h3
        exact eval_expression_err_pair _ _ _ _ _ hev
      | ok b =>
        cases b with
        | false => simp at h
        | true =>
          simp only at h
          rcases h2 : exec_nodes f host cs env1 with ⟨r2, env2⟩
          rw [h2] at h
          cases r2 with
          | error e2 =>
            simp only [Prod.mk.injEq] at h
            obtain ⟨h3, -⟩ := h
            injection h3 with h4
            subst h4
            exact ihn _ _ _ _ _ h2
          | ok s2 =>
            simp only at h
            split at h
            · simp at h
            · exact ihw _ _ _ _ _ _ _ _ _ h

end Pypage

namespace Pypage

/-- C6: end-tag handling.  A specific end tag that does not match the
innermost open block silently closes it and is handed to the enclosing
frame (`{% for %}{% if %}a{% endfor %}` parses successfully); an end tag
that reaches the root unmatched raises `UnboundEndBlockTag`; and no input
whatsoever makes the parser produce `MismatchingEndBlockTag`. -/
theorem c6_mismatched_end_tag_handling :
    (∀ src : List Char, err_matches PypageError.is_mismatching_end (parse src) = false)
    ∧ (parse ex_end_inner).toOption.isSome = true
    ∧ parse ex_end_root = .error (.UnboundEndBlockTag "endfor".data 1 11) := by
  refine ⟨?_, rfl, rfl⟩
  intro src
  cases hp : parse src with
  | ok _ => rfl
  | error e => exact (parse_err_classification src e hp).1

set_option maxHeartbeats 4000000 in
set_option maxRecDepth 16000 in
/-- C3 (code bug): the spec requires wrong-arity calls of a `def`-block
function to raise `InvalidDefBlockMismatchingArgCount`, but the evaluator
only installs a Python stub that raises a plain `ValueError`; no run of the
engine, under any host, ever reports `InvalidDefBlockMismatchingArgCount`,
and on a faithful stub host the wrong-arity call `f(1, 2)` surfaces as a
`PythonError` carrying the stub's `ValueError` message. -/
theorem c3_def_arg_count_error_never_raised :
    (∀ (fuel : Nat) (host : Host) (source : List Char) (seed_env : PyEnv),
        err_matches PypageError.is_def_arg_count_mismatch
          (pypage_process fuel host source seed_env) = false)
    ∧ pypage_process 50 host_def_stub ex_def_call []
        = .error (.PythonError
            "ValueError: Function \x27f\x27 expects 1 arguments, got 2".data) := by
  constructor
  · intro fuel host source seed_env
    cases hp : pypage_process fuel host source seed_env with
    | ok _ => rfl
    | error e =>
      simp only [pypage_process, pypage_process_env] at hp
      cases hparse : parse source with
      | error e1 =>
        rw [hparse] at hp
        simp only at hp
        injection hp with h1
        exact h1 ▸ (parse_err_classification source e1 hparse).2
      | ok tree =>
        rw [hparse] at hp
        simp only at hp
        rcases hex : exec_tree fuel host tree (initial_env seed_env) with ⟨r, envf⟩
        rw [hex] at hp
        simp only at hp
        subst hp
        exact ((exec_err_classification fuel).1 _ _ _ _ _ hex).2
  · rfl

/-- C4 (corrected): the trimmed (and unescaped) body of a code tag is
evaluated as a host expression, falling back to statement execution when
evaluation fails; the contribution to the output is empty exactly when the
host's string form of the result equals `"None"` — the code compares the
string form, not the value, so any value printing as `None` (such as the
Python string `"None"`) also renders empty. -/
theorem c4_code_output_is_string_form :
    (∀ (fuel : Nat) (host : Host) (src : List Char) (loc : Location) (env : PyEnv)
        (v : PyValue) (env' : PyEnv),
        host.eval (trim (unescape_str src)) env = (.ok v, env') →
        exec_tree fuel host (.Code src loc) env
          = (.ok (if py_str v = "None".data then [] else py_str v), env'))
    ∧ (∀ (fuel : Nat) (host : Host) (src : List Char) (loc : Location) (env : PyEnv)
        (er : List Char) (env1 env2 : PyEnv),
        host.eval (trim (unescape_str src)) env = (.error er, env1) →
        host.run (trim (unescape_str src)) env1 = (.ok (), env2) →
        exec_tree fuel host (.Code src loc) env = (.ok [], env2)) := by
  constructor
  · intro fuel host src loc env v env' hev
    cases fuel <;> simp [exec_tree, run_code, hev]
  · intro fuel host src loc env er env1 env2 hev hrun
    cases fuel <;> simp [exec_tree, run_code, hev, hrun]

theorem c4_code_output_is_string_form_witness :
    exec_tree 5 host_str_none (.Code "x".data ⟨1, 1⟩) []
        = (.ok (if py_str (PyValue.str "None".data) = "None".data then []
            else py_str (PyValue.str "None".data)), [])
    ∧ exec_tree 5 host_stmt_only (.Code "x".data ⟨1, 1⟩) [] = (.ok [], []) :=
  ⟨c4_code_output_is_string_form.1 5 host_str_none "x".data ⟨1, 1⟩ []
    (PyValue.str "None".data) [] rfl,
   c4_code_output_is_string_form.2 5 host_stmt_only "x".data ⟨1, 1⟩ []
    "invalid syntax".data [] [] rfl rfl⟩

/-- C4 counterexample: the claim as stated says a result that is not the
host's `None` value contributes its string form; but for the Python string
`"None"` (which is not `None` and whose string form is `None`) the code
contributes the empty string. -/
theorem c4_string_none_value_renders_empty :
    pypage_process 50 host_str_none ex_code [] = .ok []
    ∧ py_str (PyValue.str "None".data) = "None".data
    ∧ PyValue.str "None".data ≠ PyValue.none :=
  ⟨rfl, rfl, fun hcontra => PyValue.noConfusion hcontra⟩

/-- C7: mid-run failures of a `for` block propagate at once and skip the
unbind/restore epilogue: a generator-expression failure propagates with the
environment as the host left it, a loop-phase failure (body or unpacking)
propagates with the loop's environment untouched by delete/restore, and on
a concrete host whose second iteration fails, the target binding written by
the loop (`x` bound to 2) survives in the final environment although `x`
was unbound before the loop. -/
theorem c7_for_block_not_atomic_on_error :
    (∀ (fuel : Nat) (host : Host) (fb : ForBlock) (src : List Char) (loc : Location)
        (children : List Node) (env : PyEnv) (er : List Char) (env1 : PyEnv),
        host.eval fb.genexpr env = (.error er, env1) →
        exec_tree (fuel+2) host (.Block (.mk src loc children (.For fb))) env
          = (.error (.PythonError er), env1))
    ∧ (∀ (fuel : Nat) (host : Host) (fb : ForBlock) (src : List Char) (loc : Location)
        (children : List Node) (env : PyEnv) (g : PyValue) (env1 : PyEnv)
        (e : PypageError) (env2 : PyEnv),
        host.eval fb.genexpr env = (.ok g, env1) →
        exec_for_loop fuel host fb.targets children (host.iter g) env1 [] = (.error e, env2) →
        exec_tree (fuel+2) host (.Block (.mk src loc children (.For fb))) env
          = (.error e, env2))
    ∧ (pypage_process_env 50 host_for_err ex_for_err []).1
        = .error (.PythonError "boom".data)
    ∧ env_lookup "x".data (pypage_process_env 50 host_for_err ex_for_err []).2
        = some (PyValue.int 2)
    ∧ env_lookup "x".data (initial_env []) = Option.none := by
  refine ⟨?_, ?_, rfl, rfl, rfl⟩
  · intro fuel host fb src loc children env er env1 hev
    simp [exec_tree, exec_block, hev]
  · intro fuel host fb src loc children env g env1 e env2 hev hloop
    simp [exec_tree, exec_block, hev, hloop]

theorem c7_for_block_not_atomic_on_error_witness :
    exec_tree 2 host_stmt_only (.Block (.mk [] ⟨1, 0⟩ []
        (.For ⟨["x".data], "g".data⟩))) []
        = (.error (.PythonError "invalid syntax".data), [])
    ∧ exec_tree 52 host_for_err (.Block (.mk " for x in nums ".data ⟨1, 0⟩
        [.Code " body ".data ⟨1, 19⟩] (.For ⟨["x".data], "((x) for x in nums)".data⟩))) []
        = (.error (.PythonError "boom".data), [("x".data, PyValue.int 2)]) :=
  ⟨c7_for_block_not_atomic_on_error.1 0 host_stmt_only ⟨["x".data], "g".data⟩ [] ⟨1, 0⟩
    [] [] "invalid syntax".data [] rfl,
   c7_for_block_not_atomic_on_error.2.1 50 host_for_err
    ⟨["x".data], "((x) for x in nums)".data⟩ " for x in nums ".data ⟨1, 0⟩
    [.Code " body ".data ⟨1, 19⟩] [] (PyValue.str "gen".data) []
    (.PythonError "boom".data) [("x".data, PyValue.int 2)] rfl rfl⟩

end Pypage

namespace Pypage

theorem c5_for_loop_scope_neutrality_witness :
    env_lookup "x".data (exec_tree 50 host_for_ok (.Block (.mk " for x in nums ".data
      ⟨1, 0⟩ [.Text "i".data] (.For ⟨["x".data], "((x) for x in nums)".data⟩)))
      [("x".data, PyValue.int 7)]).2 = some (PyValue.int 7) :=
  (c5_for_loop_scope_neutrality 50 host_for_ok " for x in nums ".data ⟨1, 0⟩
    [.Text "i".data] ⟨["x".data], "((x) for x in nums)".data⟩
    [("x".data, PyValue.int 7)] "iii".data
    (exec_tree 50 host_for_ok (.Block (.mk " for x in nums ".data ⟨1, 0⟩
      [.Text "i".data] (.For ⟨["x".data], "((x) for x in nums)".data⟩)))
      [("x".data, PyValue.int 7)]).2
    rfl "x".data (by simp)).trans rfl

/-! ## While-loop iteration ceiling lemmas -/

theorem exec_while_count_le : ∀ (fuel : Nat) (host : Host) (wb : WhileBlock)
    (cs : List Node) (env : PyEnv) (out : List Char) (c : Nat),
    wb.slow = false → c < 10000 →
    (exec_while_loop fuel host wb cs env out c).2.2 ≤ 10000 := by
  intro fuel
  induction fuel with
  | zero =>
    intro host wb cs env out c hs hc
    simp only [exec_while_loop]
    omega
  | succ f ih =>
    intro host wb cs env out c hs hc
    simp only [exec_while_loop]
    rcases hev : eval_expression host wb.expr env with ⟨r1, env1⟩
    cases r1 with
    | error e1 =>
      dsimp only
      omega
    | ok b =>
      cases b with
      | false =>
        dsimp only
        omega
      | true =>
        dsimp only
        rcases hn : exec_nodes f host cs env1 with ⟨r2, env2⟩
        cases r2 with
        | error e2 =>
          dsimp only
          omega
        | ok s2 =>
          dsimp only
          rw [hs]
          by_cases hge : c + 1 ≥ 10000
          · rw [if_pos]
            · dsimp only
              omega
            · simp [hge]
          · rw [if_neg]
            · exact ih host wb cs env2 (out ++ s2) (c + 1) hs (by omega)
            · simp [hge]

theorem exec_while_true_runs_to_ceiling : ∀ (k c f : Nat) (env : PyEnv) (out : List Char),
    c + k = 10000 → 1 ≤ k → k ≤ f →
    exec_while_loop f host_true ⟨"True".data, false, false⟩ [] env out c
      = (.ok out, env, 10000) := by
  intro k
  induction k with
  | zero =>
    intro c f env out h1 h2 h3
    omega
  | succ k ih =>
    intro c f env out hsum hk1 hkf
    cases f with
    | zero => omega
    | succ f2 =>
      simp only [exec_while_loop]
      have hev : eval_expression host_true "True".data env = (.ok true, env) := rfl
      rw [hev]
      simp only [exec_nodes]
      cases k with
      | zero =>
        have hge : c + 1 ≥ 10000 := by omega
        have hc : c + 1 = 10000 := by omega
        simp [hge, hc]
      | succ k2 =>
        have hlt : ¬(c + 1 ≥ 10000) := by omega
        simp only [hlt, decide_False, Bool.not_false, Bool.true_and, if_false,
          List.append_nil]
        exact ih (c + 1) f2 env out (by omega) (by omega) (by omega)

theorem exec_while_slow_never_breaks : ∀ (f c : Nat) (env : PyEnv) (out : List Char),
    exec_while_loop f host_true ⟨"True".data, false, true⟩ [] env out c
      = (.error (.RuntimeError "out of fuel".data), env, c + f) := by
  intro f
  induction f with
  | zero =>
    intro c env out
    simp [exec_while_loop]
  | succ f2 ih =>
    intro c env out
    simp only [exec_while_loop]
    have hev : eval_expression host_true "True".data env = (.ok true, env) := rfl
    rw [hev]
    simp only [exec_nodes, Bool.not_true, Bool.false_and, if_false, List.append_nil]
    rw [ih (c + 1) env out]
    have h9 : c + 1 + f2 = c + (f2 + 1) := by omega
    rw [h9]
    simp

/-- C8: with `slow` unset, every run of the while loop performs at most
10,000 iterations, whatever the host does; starting from zero with a
constantly-true condition and an empty body the loop stops with count
exactly 10,000; and with `slow` set there is no iteration guard at all
(the loop consumes every unit of fuel).  The two-second wall-clock guard
and the diagnostic line on standard error are outside this embedding. -/
theorem c8_while_iteration_ceiling :
    (∀ (fuel : Nat) (host : Host) (wb : WhileBlock) (cs : List Node) (env : PyEnv)
        (out : List Char) (c : Nat), wb.slow = false → c < 10000 →
        (exec_while_loop fuel host wb cs env out c).2.2 ≤ 10000)
    ∧ exec_while_loop 10001 host_true ⟨"True".data, false, false⟩ [] [] [] 0
        = (.ok [], [], 10000)
    ∧ (∀ (f c : Nat) (env : PyEnv) (out : List Char),
        exec_while_loop f host_true ⟨"True".data, false, true⟩ [] env out c
          = (.error (.RuntimeError "out of fuel".data), env, c + f)) :=
  ⟨exec_while_count_le,
   exec_while_true_runs_to_ceiling 10000 0 10001 [] [] (by omega) (by omega) (by omega),
   exec_while_slow_never_breaks⟩

theorem c8_while_iteration_ceiling_witness :
    (exec_while_loop 7 host_true ⟨"True".data, false, false⟩ [] [] [] 0).2.2 ≤ 10000 :=
  c8_while_iteration_ceiling.1 7 host_true ⟨"True".data, false, false⟩ [] [] [] 0
    rfl (by omega)

/-- C9: the lexer tracks nested comment depth, so the whole nested comment
of `ex_comment` becomes a single Comment token and rendering keeps only the
trailing text, whatever the host and the seed environment. -/
theorem c9_nested_comments_single_token :
    lex ex_comment = .ok [Token.Comment " outer {# inner #} still outer ".data ⟨1, 0⟩,
      Token.Text "done".data]
    ∧ ∀ (fuel : Nat) (host : Host) (seed_env : PyEnv),
        pypage_process (fuel + 3) host ex_comment seed_env = .ok "done".data := by
  constructor
  · rfl
  · intro fuel host seed_env
    have hp : parse ex_comment = .ok (.Root [.Text "done".data]) := rfl
    simp only [pypage_process, pypage_process_env, hp]
    simp [exec_tree, exec_nodes]

/-! ## Directive-free sources lex to a single text token -/

theorem no_directives_tail (c : Char) (rest : List Char)
    (h : no_directives (c :: rest) = true) : no_directives rest = true := by
  cases rest with
  | nil => rfl
  | cons c2 r2 =>
    simp only [no_directives, Bool.and_eq_true] at h
    exact h.2

theorem no_directives_head (c1 c2 : Char) (rest : List Char)
    (h : no_directives (c1 :: c2 :: rest) = true) :
    matches_two_char_delim c1 (some c2) CODE_OPEN = false
    ∧ matches_two_char_delim c1 (some c2) COMMENT_OPEN = false
    ∧ matches_two_char_delim c1 (some c2) BLOCK_OPEN = false := by
  simp only [no_directives, Bool.and_eq_true, Bool.not_eq_true'] at h
  obtain ⟨h1, -⟩ := h
  simp only [matches_two_char_delim, CODE_OPEN, COMMENT_OPEN, BLOCK_OPEN]
  by_cases hc1 : c1 = '{'
  · subst hc1
    simp only [decide_True, Bool.true_and] at h1 ⊢
    simp only [Bool.or_eq_false_iff] at h1
    exact ⟨h1.1.1, h1.1.2, h1.2⟩
  · simp [hc1]

theorem lex_go_text_run (src : List Char) : ∀ (rem : List Char) (fuel : Nat),
    rem.length ≤ fuel → no_directives rem = true →
    ∀ (i start d ln nl : Nat) (acc : List Token),
    lex_go src fuel rem i (.Text start) d ln nl acc
      = lex_finalize src (.Text start) acc := by
  intro rem
  induction rem with
  | nil =>
    intro fuel hlen hnd i start d ln nl acc
    cases fuel <;> rfl
  | cons c rest ih =>
    intro fuel hlen hnd i start d ln nl acc
    cases fuel with
    | zero => simp at hlen
    | succ f =>
      have hfalse : matches_two_char_delim c rest.head? CODE_OPEN = false
          ∧ matches_two_char_delim c rest.head? COMMENT_OPEN = false
          ∧ matches_two_char_delim c rest.head? BLOCK_OPEN = false := by
        cases rest with
        | nil => exact ⟨rfl, rfl, rfl⟩
        | cons c2 r2 => exact no_directives_head c c2 r2 hnd
      obtain ⟨h1, h2, h3⟩ := hfalse
      simp only [lex_go, h1, h2, h3, Bool.or_self, Bool.false_or, if_false,
        Bool.false_eq_true]
      exact ih f (by simpa using Nat.succ_le_succ_iff.mp hlen)
        (no_directives_tail c rest hnd) (i+1) start d _ _ acc

theorem lex_no_directives (c : Char) (rest : List Char)
    (h : no_directives (c :: rest) = true) :
    lex (c :: rest) = .ok [Token.Text (c :: rest)] := by
  simp only [lex]
  have hfalse : matches_two_char_delim c rest.head? CODE_OPEN = false
      ∧ matches_two_char_delim c rest.head? COMMENT_OPEN = false
      ∧ matches_two_char_delim c rest.head? BLOCK_OPEN = false := by
    cases rest with
    | nil => exact ⟨rfl, rfl, rfl⟩
    | cons c2 r2 => exact no_directives_head c c2 r2 h
  obtain ⟨h1, h2, h3⟩ := hfalse
  simp only [lex_go, h1, h2, h3]
  rw [if_neg]
  · rw [lex_go_text_run (c :: rest) rest (2 * (c :: rest).length)
      (by simp; omega) (no_directives_tail c rest h)]
    simp [lex_finalize]
  · simp

/-- C10: a source containing none of the two-character openers is rendered
unchanged, whatever the host and the seed environment. -/
theorem c10_no_directives_identity (fuel : Nat) (host : Host) (seed_env : PyEnv)
    (s : List Char) (h : no_directives s = true) :
    pypage_process (fuel + 3) host s seed_env = .ok s := by
  cases s with
  | nil => rfl
  | cons c rest =>
    have hlex := lex_no_directives c rest h
    simp only [pypage_process, pypage_process_env, parse, hlex]
    simp [prune_tokens, build_tree, exec_tree, exec_nodes]

theorem c10_no_directives_identity_witness :
    pypage_process 10 host_true "hello world".data [] = .ok "hello world".data :=
  c10_no_directives_identity 7 host_true [] "hello world".data (by decide)

end Pypage
